import Mathlib

/-!
Shallow embedding of the LTC fitting engine of src/fit/fitLTC.cpp.

Floating point values are modelled as exact rationals.  Transcendental
library functions (sinf, cosf, acosf and the square root used by the glm
normalize helper) are taken as abstract function parameters, since the
claims under verification do not depend on their values.  The repository
headers LTC.h, brdf.h and nelder_mead.h are not part of the sources; the
pieces of them that the fitting engine touches are modelled from the
specification and marked as such below.
-/

namespace LTCFit

/-- Number of samples used to compute the error during fitting
(fitLTC.cpp line 24). -/
def Nsample : ℕ := 32

/-- Minimal roughness, avoiding singularities (fitLTC.cpp line 26).
The float literal 0.0001f is modelled as the exact rational 1/10000. -/
def MIN_ALPHA : ℚ := 0.0001

/-- glm vec3 with rational components. -/
structure Vec3 where
  x : ℚ
  y : ℚ
  z : ℚ

/-- glm vec4 with rational components. -/
structure Vec4 where
  x : ℚ
  y : ℚ
  z : ℚ
  w : ℚ

/-- Componentwise addition of vectors. -/
def Vec3.add (u v : Vec3) : Vec3 := ⟨u.x + v.x, u.y + v.y, u.z + v.z⟩

/-- Scalar multiplication of a vector. -/
def Vec3.smul (k : ℚ) (v : Vec3) : Vec3 := ⟨k * v.x, k * v.y, k * v.z⟩

instance : Zero Vec3 := ⟨⟨0, 0, 0⟩⟩

instance : Add Vec3 := ⟨Vec3.add⟩

instance : AddCommMonoid Vec3 where
  add_assoc a b c := by
    show Vec3.add (Vec3.add a b) c = Vec3.add a (Vec3.add b c)
    simp only [Vec3.add, Vec3.mk.injEq]
    refine ⟨by ring, by ring, by ring⟩
  zero_add a := by
    show Vec3.add ⟨0, 0, 0⟩ a = a
    simp [Vec3.add]
  add_zero a := by
    show Vec3.add a ⟨0, 0, 0⟩ = a
    simp [Vec3.add]
  add_comm a b := by
    show Vec3.add a b = Vec3.add b a
    simp only [Vec3.add, Vec3.mk.injEq]
    refine ⟨by ring, by ring, by ring⟩
  nsmul := nsmulRec

/-- glm mat3 in column major layout: `m c r` is the entry of column `c`
and row `r`, so that the C++ access `m[c][r]` is `m c r`. -/
abbrev Mat3 := Fin 3 → Fin 3 → ℚ

/-- The components of a vector, indexed by `Fin 3`. -/
def Vec3.comp (v : Vec3) : Fin 3 → ℚ := ![v.x, v.y, v.z]

/-- Build a column major matrix from its three column vectors. -/
def mat3Cols (c0 c1 c2 : Vec3) : Mat3 := fun c => (![c0, c1, c2] c).comp

/-- Reinterpret a column major `Mat3` as a Mathlib matrix (row index
first), for the algebraic statements about packTab. -/
def toMatrix (m : Mat3) : Matrix (Fin 3) (Fin 3) ℚ :=
  Matrix.of fun r c => m c r

/-- The reflectance capability consumed by the fitting engine: `sample`
maps a view vector, a roughness and two uniform values to a light
direction, and `eval` returns the pair of reflectance value and sampling
density for a pair of directions.  This is the abstract interface of
brdf.h, which the core depends on polymorphically. -/
structure Brdf where
  sample : Vec3 → ℚ → ℚ → ℚ → Vec3
  eval : Vec3 → Vec3 → ℚ → ℚ × ℚ

/-- Modelled from the spec: the lobe state of LTC.h, which is not part
of the sources.  It carries the scalar amplitude, the three free scalars
m11, m22, m13, the orthonormal frame X, Y, Z and the derived transform
matrix M. -/
structure LTC where
  amplitude : ℚ
  m11 : ℚ
  m22 : ℚ
  m13 : ℚ
  X : Vec3
  Y : Vec3
  Z : Vec3
  M : Mat3

/-- Modelled from the spec: LTC.update of LTC.h recomputes the derived
transform from the free scalars and the frame; the transform is the
frame matrix with columns X, Y, Z applied to the parameter matrix whose
columns are (m11, 0, 0), (0, m22, 0), (m13, 0, 1), which matches the
sparsity pattern documented in packTab. The free scalars, the frame and
the amplitude are left unchanged. -/
def LTC.update (l : LTC) : LTC :=
  { l with
    M := mat3Cols (Vec3.smul l.m11 l.X) (Vec3.smul l.m22 l.Y)
        (Vec3.add (Vec3.smul l.m13 l.X) l.Z) }

/-- The type of the optimizer of nelder_mead.h: from a starting
parameter vector, an initial simplex size, a tolerance, an iteration cap
and an objective, produce the refined parameter vector. -/
abbrev NelderMeadT := (Fin 3 → ℚ) → ℚ → ℚ → ℕ → ((Fin 3 → ℚ) → ℚ) → (Fin 3 → ℚ)

section Core

variable (sinf cosf acosf sqrtf : ℚ → ℚ)
variable (ltcSample : LTC → ℚ → ℚ → Vec3)
variable (ltcEval : LTC → Vec3 → ℚ)
variable (nelderMead : NelderMeadT)

/-- The stratified sample coordinate (i + 0.5) / Nsample used by all
three estimators. -/
def stratCenter (i : ℕ) : ℚ := ((i : ℚ) + 0.5) / (Nsample : ℚ)

/-- One contribution of the albedo estimator computeNorm (fitLTC.cpp
lines 37 to 48): sample the BRDF, evaluate it, and accumulate eval/pdf
when the density is strictly positive, zero otherwise. -/
def normTerm (brdf : Brdf) (V : Vec3) (alpha : ℚ) (i j : ℕ) : ℚ :=
  let U1 := stratCenter i
  let U2 := stratCenter j
  let L := brdf.sample V alpha U1 U2
  let ep := brdf.eval V L alpha
  if 0 < ep.2 then ep.1 / ep.2 else 0

/-- computeNorm of fitLTC.cpp lines 30 to 52: the mean of the guarded
contributions over the stratified Nsample x Nsample grid. -/
def computeNorm (brdf : Brdf) (V : Vec3) (alpha : ℚ) : ℚ :=
  ((List.range Nsample).foldl (fun norm j =>
      (List.range Nsample).foldl (fun norm i =>
        norm + normTerm brdf V alpha i j) norm) 0)
    / ((Nsample : ℚ) * (Nsample : ℚ))

/-- One contribution of the average direction estimator (fitLTC.cpp
lines 62 to 73): the sampled direction weighted by eval/pdf when the
density is strictly positive, the zero vector otherwise. -/
def averageDirTerm (brdf : Brdf) (V : Vec3) (alpha : ℚ) (i j : ℕ) : Vec3 :=
  let U1 := stratCenter i
  let U2 := stratCenter j
  let L := brdf.sample V alpha U1 U2
  let ep := brdf.eval V L alpha
  if 0 < ep.2 then Vec3.smul (ep.1 / ep.2) L else ⟨0, 0, 0⟩

/-- The accumulator of computeAverageDir before the y component is
cleared and the result normalized. -/
def computeAverageDirAccum (brdf : Brdf) (V : Vec3) (alpha : ℚ) : Vec3 :=
  (List.range Nsample).foldl (fun acc j =>
      (List.range Nsample).foldl (fun acc i =>
        acc + averageDirTerm brdf V alpha i j) acc) 0

/-- glm normalize, modelled with the abstract square root parameter:
v / sqrt(dot v v). -/
def vnormalize (v : Vec3) : Vec3 :=
  Vec3.smul (1 / sqrtf (v.x * v.x + v.y * v.y + v.z * v.z)) v

/-- computeAverageDir of fitLTC.cpp lines 55 to 80: accumulate the
guarded weighted directions, clear the y component, normalize. -/
def computeAverageDir (brdf : Brdf) (V : Vec3) (alpha : ℚ) : Vec3 :=
  let acc := computeAverageDirAccum brdf V alpha
  vnormalize sqrtf ⟨acc.x, 0, acc.z⟩

/-- The direction drawn from the lobe sampling strategy for stratified
pair (i, j). -/
def misDirLTC (ltc : LTC) (i j : ℕ) : Vec3 :=
  ltcSample ltc (stratCenter i) (stratCenter j)

/-- The direction drawn from the BRDF sampling strategy for stratified
pair (i, j). -/
def misDirBrdf (brdf : Brdf) (V : Vec3) (alpha : ℚ) (i j : ℕ) : Vec3 :=
  brdf.sample V alpha (stratCenter i) (stratCenter j)

/-- The density of the lobe at a direction, as computeError derives it:
the lobe evaluation divided by the amplitude (fitLTC.cpp line 103). -/
def pdfLTC (ltc : LTC) (L : Vec3) : ℚ := ltcEval ltc L / ltc.amplitude

/-- The density of the BRDF at a direction, the second component of its
evaluation. -/
def pdfBrdf (brdf : Brdf) (V : Vec3) (alpha : ℚ) (L : Vec3) : ℚ :=
  (brdf.eval V L alpha).2

/-- The lobe-sampled contribution of the error estimator (fitLTC.cpp
lines 95 to 107): cubed absolute difference between BRDF reflectance and
lobe value, divided by the sum of the two densities. -/
def errorTermLTC (ltc : LTC) (brdf : Brdf) (V : Vec3) (alpha : ℚ) (i j : ℕ) : ℚ :=
  let L := misDirLTC ltcSample ltc i j
  let eval_brdf := (brdf.eval V L alpha).1
  let eval_ltc := ltcEval ltc L
  let err := |eval_brdf - eval_ltc|
  err * err * err / (pdfLTC ltcEval ltc L + pdfBrdf brdf V alpha L)

/-- The BRDF-sampled contribution of the error estimator (fitLTC.cpp
lines 110 to 122). -/
def errorTermBrdf (ltc : LTC) (brdf : Brdf) (V : Vec3) (alpha : ℚ) (i j : ℕ) : ℚ :=
  let L := misDirBrdf brdf V alpha i j
  let eval_brdf := (brdf.eval V L alpha).1
  let eval_ltc := ltcEval ltc L
  let err := |eval_brdf - eval_ltc|
  err * err * err / (pdfLTC ltcEval ltc L + pdfBrdf brdf V alpha L)

/-- computeError of fitLTC.cpp lines 84 to 126: for every stratified
pair accumulate the lobe-sampled and the BRDF-sampled contributions and
return the accumulated error divided by Nsample * Nsample. -/
def computeError (ltc : LTC) (brdf : Brdf) (V : Vec3) (alpha : ℚ) : ℚ :=
  ((List.range Nsample).foldl (fun error j =>
      (List.range Nsample).foldl (fun error i =>
        error + errorTermLTC ltcSample ltcEval ltc brdf V alpha i j
          + errorTermBrdf ltcEval ltc brdf V alpha i j) error) 0)
    / ((Nsample : ℚ) * (Nsample : ℚ))

/-- The lobe-sampled error contribution with its division guarded:
a value only when the sum of the two densities is strictly positive.
Not part of the source, which divides unconditionally; this makes the
implicit precondition of computeError statable. -/
def errorTermLTCChecked (ltc : LTC) (brdf : Brdf) (V : Vec3) (alpha : ℚ) (i j : ℕ) :
    Option ℚ :=
  let L := misDirLTC ltcSample ltc i j
  let eval_brdf := (brdf.eval V L alpha).1
  let eval_ltc := ltcEval ltc L
  let err := |eval_brdf - eval_ltc|
  if 0 < pdfLTC ltcEval ltc L + pdfBrdf brdf V alpha L
  then some (err * err * err / (pdfLTC ltcEval ltc L + pdfBrdf brdf V alpha L))
  else none

/-- The model-sampled error contribution with its division guarded. -/
def errorTermBrdfChecked (ltc : LTC) (brdf : Brdf) (V : Vec3) (alpha : ℚ) (i j : ℕ) :
    Option ℚ :=
  let L := misDirBrdf brdf V alpha i j
  let eval_brdf := (brdf.eval V L alpha).1
  let eval_ltc := ltcEval ltc L
  let err := |eval_brdf - eval_ltc|
  if 0 < pdfLTC ltcEval ltc L + pdfBrdf brdf V alpha L
  then some (err * err * err / (pdfLTC ltcEval ltc L + pdfBrdf brdf V alpha L))
  else none

/-- computeError with every division guarded: defined exactly when both
divisions of every stratified pair have a strictly positive density
sum. -/
def computeErrorChecked (ltc : LTC) (brdf : Brdf) (V : Vec3) (alpha : ℚ) : Option ℚ :=
  ((List.range Nsample).foldl (fun acc j =>
      (List.range Nsample).foldl (fun acc i =>
        acc.bind (fun e =>
          (errorTermLTCChecked ltcSample ltcEval ltc brdf V alpha i j).bind (fun t1 =>
            (errorTermBrdfChecked ltcEval ltc brdf V alpha i j).map (fun t2 =>
              e + t1 + t2)))) acc) (some 0)).map
    (fun e => e / ((Nsample : ℚ) * (Nsample : ℚ)))

/-- FitLTC.update of fitLTC.cpp lines 135 to 154: clamp the first two
parameters to MIN_ALPHA, then either apply the isotropic constraint
(m22 equal to m11 and zero skew) or take the three parameters as they
are, and recompute the derived transform. -/
def FitLTC.update (isotropic : Bool) (params : Fin 3 → ℚ) (l : LTC) : LTC :=
  let m11 := max (params 0) MIN_ALPHA
  let m22 := max (params 1) MIN_ALPHA
  let m13 := params 2
  LTC.update
    (if isotropic then { l with m11 := m11, m22 := m11, m13 := 0 }
     else { l with m11 := m11, m22 := m22, m13 := m13 })

/-- The objective bound to one cell, the call operator of FitLTC
(fitLTC.cpp lines 156 to 160): update the lobe from the parameter vector
and return the error against the reflectance model. -/
def FitLTC.objective (isotropic : Bool) (brdf : Brdf) (V : Vec3) (alpha : ℚ)
    (l : LTC) : (Fin 3 → ℚ) → ℚ :=
  fun params =>
    computeError ltcSample ltcEval (FitLTC.update isotropic params l) brdf V alpha

/-- fit of fitLTC.cpp lines 172 to 184: run the optimizer from the
current scalars with the bound objective, then write the best fitting
values back into the lobe with a final FitLTC.update. -/
def fit (l : LTC) (brdf : Brdf) (V : Vec3) (alpha : ℚ) (epsilon : ℚ)
    (isotropic : Bool) : LTC :=
  let startFit : Fin 3 → ℚ := ![l.m11, l.m22, l.m13]
  let resultFit :=
    nelderMead startFit epsilon 1e-5 100
      (FitLTC.objective ltcSample ltcEval isotropic brdf V alpha l)
  FitLTC.update isotropic resultFit l

/-- The state threaded through the grid traversal of fitTab: the single
lobe object, the matrix table and the amplitude table. -/
structure FitState where
  ltc : LTC
  tab : ℕ → Mat3
  tabAmplitude : ℕ → ℚ × ℚ

/-- The four matrix entries zeroed by fitTab in every stored cell
(fitLTC.cpp lines 262 to 265). -/
def killCoefs (m : Mat3) : Mat3 := fun c r =>
  if (c = 0 ∧ r = 1) ∨ (c = 1 ∧ r = 0) ∨ (c = 2 ∧ r = 1) ∨ (c = 1 ∧ r = 2)
  then 0 else m c r

/-- The view vector of cell column t (fitLTC.cpp lines 196 to 198):
theta is arccos(t/(N-1)) clamped to 1.57 and V = (sin theta, 0,
cos theta). -/
def cellV (N t : ℕ) : Vec3 :=
  let ct : ℚ := (t : ℚ) / ((N : ℚ) - 1)
  let theta : ℚ := min 1.57 (acosf ct)
  ⟨sinf theta, 0, cosf theta⟩

/-- The fit roughness of cell row a (fitLTC.cpp lines 201 to 202):
the squared bucket roughness a/(N-1), floored at MIN_ALPHA. -/
def cellAlpha (N a : ℕ) : ℚ :=
  let roughness : ℚ := (a : ℚ) / ((N : ℚ) - 1)
  max (roughness * roughness) MIN_ALPHA

/-- The first guess of fitTab for cell (a, t) (fitLTC.cpp lines 208 to
250): set the amplitude from the norm estimator, then either reset the
frame to the identity and seed the scales for the isotropic boundary
column t = N-1, or re-orient the frame from the average direction
estimate.  Returns the seeded lobe and the isotropic flag. -/
def seedLTC (brdf : Brdf) (N : ℕ) (s : FitState) (a t : ℕ) : LTC × Bool :=
  let V := cellV sinf cosf acosf N t
  let alpha := cellAlpha N a
  let ltc0 := { s.ltc with amplitude := computeNorm brdf V alpha }
  if t = N - 1 then
    (LTC.update
      { ltc0 with
        X := ⟨1, 0, 0⟩, Y := ⟨0, 1, 0⟩, Z := ⟨0, 0, 1⟩,
        m11 := if a = N - 1 then 1 else max (s.tab (a + 1 + t * N) 0 0) MIN_ALPHA,
        m22 := if a = N - 1 then 1 else max (s.tab (a + 1 + t * N) 1 1) MIN_ALPHA,
        m13 := 0 }, true)
  else
    let L := computeAverageDir sqrtf brdf V alpha
    (LTC.update { ltc0 with X := ⟨L.z, 0, -L.x⟩, Y := ⟨0, 1, 0⟩, Z := L }, false)

/-- The lobe that cell (a, t) converges to: the seeded first guess
refined by fit with epsilon 0.05 (fitLTC.cpp lines 252 to 254). -/
def cellFit (brdf : Brdf) (N : ℕ) (s : FitState) (a t : ℕ) : LTC :=
  fit ltcSample ltcEval nelderMead (seedLTC sinf cosf acosf sqrtf brdf N s a t).1
    brdf (cellV sinf cosf acosf N t) (cellAlpha N a) 0.05
    (seedLTC sinf cosf acosf sqrtf brdf N s a t).2

/-- The body of the fitTab double loop for cell (a, t) (fitLTC.cpp
lines 195 to 270): seed the lobe, fit it, then store the fitted matrix
(with the four structurally zero entries killed) and the amplitude at
index a + t * N. -/
def cellStep (brdf : Brdf) (N : ℕ) (s : FitState) (cell : ℕ × ℕ) : FitState :=
  { ltc := cellFit sinf cosf acosf sqrtf ltcSample ltcEval nelderMead brdf N s cell.1 cell.2,
    tab := Function.update s.tab (cell.1 + cell.2 * N)
      (killCoefs (cellFit sinf cosf acosf sqrtf ltcSample ltcEval nelderMead brdf N s cell.1 cell.2).M),
    tabAmplitude := Function.update s.tabAmplitude (cell.1 + cell.2 * N)
      ((cellFit sinf cosf acosf sqrtf ltcSample ltcEval nelderMead brdf N s cell.1 cell.2).amplitude, 0) }

/-- Modelled from the spec: the default constructed lobe at the entry of
fitTab (LTC.h is not in the sources).  Its value is unobservable, since
the first processed cell overwrites the amplitude, the frame and the
scalars before any use. -/
def initLTC : LTC :=
  { amplitude := 1, m11 := 1, m22 := 1, m13 := 0,
    X := ⟨1, 0, 0⟩, Y := ⟨0, 1, 0⟩, Z := ⟨0, 0, 1⟩,
    M := mat3Cols ⟨1, 0, 0⟩ ⟨0, 1, 0⟩ ⟨0, 0, 1⟩ }

/-- The state at the entry of fitTab.  The freshly allocated tables of
main are modelled as zero filled; fitTab never reads a cell it has not
written. -/
def initState : FitState :=
  { ltc := initLTC, tab := fun _ _ _ => 0, tabAmplitude := fun _ => (0, 0) }

/-- The inner loop of fitTab over one roughness row a: process the
first k cells of the row, in the traversal order t = N-1 down to
N-k. -/
def runCol (brdf : Brdf) (N a : ℕ) : ℕ → FitState → FitState
  | 0, s => s
  | k + 1, s =>
    cellStep sinf cosf acosf sqrtf ltcSample ltcEval nelderMead brdf N
      (runCol brdf N a k s) (a, N - 1 - k)

/-- The outer loop of fitTab: process the first k rows, in the
traversal order a = N-1 down to N-k, each row completely. -/
def runCols (brdf : Brdf) (N : ℕ) : ℕ → FitState → FitState
  | 0, s => s
  | k + 1, s =>
    runCol sinf cosf acosf sqrtf ltcSample ltcEval nelderMead brdf N
      (N - 1 - k) N
      (runCols brdf N k s)

/-- fitTab of fitLTC.cpp lines 187 to 272: the full grid traversal,
a = N-1 down to 0 and, within each a, t = N-1 down to 0. -/
def fitTab (N : ℕ) (brdf : Brdf) : FitState :=
  runCols sinf cosf acosf sqrtf ltcSample ltcEval nelderMead brdf N N initState

/-- The traversal state at the entry of cell (a, t): all rows above a
are complete and, within row a, the cells with larger t are done. -/
def stateBefore (brdf : Brdf) (N a t : ℕ) : FitState :=
  runCol sinf cosf acosf sqrtf ltcSample ltcEval nelderMead brdf N a (N - 1 - t)
    (runCols sinf cosf acosf sqrtf ltcSample ltcEval nelderMead brdf N (N - 1 - a)
      initState)

/-- The first guess computed at cell (a, t) of the traversal, applied to
the state the traversal reaches that cell with. -/
def seedAt (brdf : Brdf) (N a t : ℕ) : LTC × Bool :=
  seedLTC sinf cosf acosf sqrtf brdf N
    (stateBefore sinf cosf acosf sqrtf ltcSample ltcEval nelderMead brdf N a t) a t

end Core

/-- The stored boundary column entry of row a has both diagonal scales
at or above the MIN_ALPHA floor. -/
def edgeOK (N : ℕ) (s : FitState) (a : ℕ) : Prop :=
  MIN_ALPHA ≤ s.tab (a + (N - 1) * N) 0 0 ∧ MIN_ALPHA ≤ s.tab (a + (N - 1) * N) 1 1

/-- A function vanishing everywhere, used to instantiate the abstract
transcendental parameters on concrete checks. -/
def zeroFn : ℚ → ℚ := fun _ => 0

/-- A degenerate reflectance model with constant evaluation (1, 1),
used on concrete checks. -/
def brdfConst : Brdf :=
  { sample := fun _ _ _ _ => ⟨0, 0, 1⟩, eval := fun _ _ _ => (1, 1) }

/-- A degenerate lobe sampler used on concrete checks. -/
def ltcSampleConst : LTC → ℚ → ℚ → Vec3 := fun _ _ _ => ⟨0, 0, 1⟩

/-- A degenerate lobe evaluator used on concrete checks. -/
def ltcEvalConst : LTC → Vec3 → ℚ := fun _ _ => 1

/-- The optimizer instance that returns its starting point, used on
concrete checks. -/
def nmIdentity : NelderMeadT := fun start _ _ _ _ => start

/-- A concrete matrix with the stored sparsity pattern, used on
concrete checks. -/
def mExample : Mat3 := fun c r =>
  if c = 0 ∧ r = 0 then 2
  else if c = 0 ∧ r = 2 then 3
  else if c = 1 ∧ r = 1 then 5
  else if c = 2 ∧ r = 0 then 7
  else if c = 2 ∧ r = 2 then 11
  else 0

/-- A concrete unit view vector, used on concrete checks. -/
def vUnit : Vec3 := ⟨0, 0, 1⟩

/-- A constant table holding mExample, used on concrete checks. -/
def tabExample : ℕ → Mat3 := fun _ => mExample

/-- A constant amplitude table, used on concrete checks. -/
def ampExample : ℕ → ℚ × ℚ := fun _ => (9, 0)

/-- packTab of fitLTC.cpp lines 274 to 307: per cell, read the five
structurally nonzero entries of the stored matrix and emit the terms of
its rescaled analytic inverse together with the stored amplitude. -/
def packTab (tab : ℕ → Mat3) (tabAmplitude : ℕ → ℚ × ℚ) (N : ℕ) :
    ℕ → Vec4 × (ℚ × ℚ) :=
  fun i =>
    let m := tab i
    let a := m 0 0
    let b := m 0 2
    let c := m 1 1
    let d := m 2 0
    let e := m 2 2
    let t0 := c * e
    let t1 := -b * c
    let t2 := a * e - b * d
    let t3 := -c * d
    let t4 := a * c
    (⟨t0, t1, t2, t3⟩, (t4, (tabAmplitude i).1))

/-- The five emitted terms placed back in the sparsity pattern of the
stored matrix, as the renderer reconstructs the rescaled inverse.  This
definition follows the words of the spec, for comparison with the
adjugate. -/
def reconstructInv (t : Vec4) (t4 : ℚ) : Mat3 := fun c r =>
  if c = 0 ∧ r = 0 then t.x
  else if c = 0 ∧ r = 2 then t.y
  else if c = 1 ∧ r = 1 then t.z
  else if c = 2 ∧ r = 0 then t.w
  else if c = 2 ∧ r = 2 then t4
  else 0

/-- Folding addition over List.range is summation over Finset.range. -/
lemma range_foldl_add {M : Type} [AddCommMonoid M] (f : ℕ → M) :
    ∀ (n : ℕ) (init : M),
      (List.range n).foldl (fun acc i => acc + f i) init
        = init + ∑ i ∈ Finset.range n, f i := by
  intro n
  induction n with
  | zero => intro init; simp
  | succ n ih =>
    intro init
    rw [List.range_succ, List.foldl_append, ih, Finset.sum_range_succ]
    simp [add_assoc]

lemma ltcUpdate_m11 (l : LTC) : (LTC.update l).m11 = l.m11 := rfl

lemma ltcUpdate_m22 (l : LTC) : (LTC.update l).m22 = l.m22 := rfl

lemma ltcUpdate_m13 (l : LTC) : (LTC.update l).m13 = l.m13 := rfl

lemma ltcUpdate_X (l : LTC) : (LTC.update l).X = l.X := rfl

lemma ltcUpdate_Y (l : LTC) : (LTC.update l).Y = l.Y := rfl

lemma ltcUpdate_Z (l : LTC) : (LTC.update l).Z = l.Z := rfl

lemma ltcUpdate_M_00 (l : LTC) : (LTC.update l).M 0 0 = l.m11 * l.X.x := rfl

lemma ltcUpdate_M_11 (l : LTC) : (LTC.update l).M 1 1 = l.m22 * l.Y.y := rfl

lemma fitUpdate_m11 (iso : Bool) (p : Fin 3 → ℚ) (l : LTC) :
    (FitLTC.update iso p l).m11 = max (p 0) MIN_ALPHA := by
  cases iso <;> rfl

lemma fitUpdate_m22 (iso : Bool) (p : Fin 3 → ℚ) (l : LTC) :
    (FitLTC.update iso p l).m22
      = if iso then max (p 0) MIN_ALPHA else max (p 1) MIN_ALPHA := by
  cases iso <;> rfl

lemma fitUpdate_true_m22 (p : Fin 3 → ℚ) (l : LTC) :
    (FitLTC.update true p l).m22 = max (p 0) MIN_ALPHA := rfl

lemma fitUpdate_true_m13 (p : Fin 3 → ℚ) (l : LTC) :
    (FitLTC.update true p l).m13 = 0 := rfl

lemma fitUpdate_X (iso : Bool) (p : Fin 3 → ℚ) (l : LTC) :
    (FitLTC.update iso p l).X = l.X := by
  cases iso <;> rfl

lemma fitUpdate_Y (iso : Bool) (p : Fin 3 → ℚ) (l : LTC) :
    (FitLTC.update iso p l).Y = l.Y := by
  cases iso <;> rfl

lemma fitUpdate_M_00 (iso : Bool) (p : Fin 3 → ℚ) (l : LTC) :
    (FitLTC.update iso p l).M 0 0 = (FitLTC.update iso p l).m11 * l.X.x := by
  cases iso <;> rfl

lemma fitUpdate_M_11 (iso : Bool) (p : Fin 3 → ℚ) (l : LTC) :
    (FitLTC.update iso p l).M 1 1 = (FitLTC.update iso p l).m22 * l.Y.y := by
  cases iso <;> rfl

lemma killCoefs_00 (m : Mat3) : killCoefs m 0 0 = m 0 0 := rfl

lemma killCoefs_11 (m : Mat3) : killCoefs m 1 1 = m 1 1 := rfl

/-- The flat index a + t * N determines the cell inside the grid. -/
lemma cellIndex_inj {N a t a2 t2 : ℕ} (ha : a < N) (ha2 : a2 < N)
    (h : a + t * N = a2 + t2 * N) : a = a2 ∧ t = t2 := by
  have h1 : (a + t * N) % N = a := by
    rw [Nat.add_mul_mod_self_right, Nat.mod_eq_of_lt ha]
  have h2 : (a2 + t2 * N) % N = a2 := by
    rw [Nat.add_mul_mod_self_right, Nat.mod_eq_of_lt ha2]
  have haa : a = a2 := by rw [← h1, ← h2, h]
  subst haa
  have hN : 0 < N := lt_of_le_of_lt (Nat.zero_le a) ha
  have hts : t * N = t2 * N := by omega
  exact ⟨rfl, Nat.eq_of_mul_eq_mul_right hN hts⟩

section Lemmas

variable (sinf cosf acosf sqrtf : ℚ → ℚ)
variable (ltcSample : LTC → ℚ → ℚ → Vec3)
variable (ltcEval : LTC → Vec3 → ℚ)
variable (nelderMead : NelderMeadT)

lemma seedLTC_edge_iso (brdf : Brdf) (N : ℕ) (s : FitState) (a : ℕ) :
    (seedLTC sinf cosf acosf sqrtf brdf N s a (N - 1)).2 = true := by
  simp [seedLTC]

lemma seedLTC_edge_fst (brdf : Brdf) (N : ℕ) (s : FitState) (a : ℕ) :
    (seedLTC sinf cosf acosf sqrtf brdf N s a (N - 1)).1
      = LTC.update
          { s.ltc with
            amplitude := computeNorm brdf (cellV sinf cosf acosf N (N - 1)) (cellAlpha N a),
            X := ⟨1, 0, 0⟩, Y := ⟨0, 1, 0⟩, Z := ⟨0, 0, 1⟩,
            m11 := if a = N - 1 then 1
              else max (s.tab (a + 1 + (N - 1) * N) 0 0) MIN_ALPHA,
            m22 := if a = N - 1 then 1
              else max (s.tab (a + 1 + (N - 1) * N) 1 1) MIN_ALPHA,
            m13 := 0 } := by
  simp [seedLTC]

lemma seedLTC_interior (brdf : Brdf) (N : ℕ) (s : FitState) (a t : ℕ)
    (h : t ≠ N - 1) :
    (seedLTC sinf cosf acosf sqrtf brdf N s a t).2 = false ∧
    (seedLTC sinf cosf acosf sqrtf brdf N s a t).1
      = LTC.update
          { s.ltc with
            amplitude := computeNorm brdf (cellV sinf cosf acosf N t) (cellAlpha N a),
            X := ⟨(computeAverageDir sqrtf brdf (cellV sinf cosf acosf N t) (cellAlpha N a)).z, 0,
                  -(computeAverageDir sqrtf brdf (cellV sinf cosf acosf N t) (cellAlpha N a)).x⟩,
            Y := ⟨0, 1, 0⟩,
            Z := computeAverageDir sqrtf brdf (cellV sinf cosf acosf N t) (cellAlpha N a) } := by
  constructor <;> simp [seedLTC, h]

/-- The fitted lobe of a boundary column cell is a constrained
isotropic FitLTC.update of the seeded lobe. -/
lemma cellFit_edge (brdf : Brdf) (N : ℕ) (s : FitState) (a : ℕ) :
    ∃ res, cellFit sinf cosf acosf sqrtf ltcSample ltcEval nelderMead brdf N s a (N - 1)
      = FitLTC.update true res
          (seedLTC sinf cosf acosf sqrtf brdf N s a (N - 1)).1 := by
  apply Exists.intro
  simp only [cellFit, fit]
  rw [seedLTC_edge_iso]

lemma cellStep_tab_ne (brdf : Brdf) (N : ℕ) (s : FitState) (cell : ℕ × ℕ)
    (i : ℕ) (hi : i ≠ cell.1 + cell.2 * N) :
    (cellStep sinf cosf acosf sqrtf ltcSample ltcEval nelderMead brdf N s cell).tab i
      = s.tab i :=
  Function.update_noteq hi _ _

/-- Processing a boundary column cell stores floored diagonal scales. -/
lemma cellStep_edge_write (brdf : Brdf) (N : ℕ) (s : FitState) (a : ℕ) :
    edgeOK N (cellStep sinf cosf acosf sqrtf ltcSample ltcEval nelderMead brdf N s (a, N - 1)) a := by
  obtain ⟨res, hres⟩ := cellFit_edge sinf cosf acosf sqrtf ltcSample ltcEval nelderMead brdf N s a
  have htab : (cellStep sinf cosf acosf sqrtf ltcSample ltcEval nelderMead brdf N s (a, N - 1)).tab
      (a + (N - 1) * N)
      = killCoefs (cellFit sinf cosf acosf sqrtf ltcSample ltcEval nelderMead brdf N s a (N - 1)).M :=
    Function.update_same _ _ _
  have hX : (seedLTC sinf cosf acosf sqrtf brdf N s a (N - 1)).1.X = ⟨1, 0, 0⟩ := by
    rw [seedLTC_edge_fst]; rfl
  have hY : (seedLTC sinf cosf acosf sqrtf brdf N s a (N - 1)).1.Y = ⟨0, 1, 0⟩ := by
    rw [seedLTC_edge_fst]; rfl
  constructor
  · rw [htab, killCoefs_00, hres, fitUpdate_M_00, hX, fitUpdate_m11]
    simp
  · rw [htab, killCoefs_11, hres, fitUpdate_M_11, hY, fitUpdate_true_m22]
    simp

/-- A cell step leaves the stored boundary entry of any other row (or
of the same row when the cell is not the boundary cell) untouched. -/
lemma cellStep_edgeOK_preserve (brdf : Brdf) (N : ℕ) (s : FitState)
    (a t a2 : ℕ) (ha : a < N) (ha2 : a2 < N)
    (hne : (a2, N - 1) ≠ (a, t))
    (h : edgeOK N s a2) :
    edgeOK N (cellStep sinf cosf acosf sqrtf ltcSample ltcEval nelderMead brdf N s (a, t)) a2 := by
  have hidx : a2 + (N - 1) * N ≠ a + t * N := by
    intro hcontra
    rcases cellIndex_inj ha2 ha hcontra with ⟨h1, h2⟩
    exact hne (by rw [h1, h2])
  have htab := cellStep_tab_ne sinf cosf acosf sqrtf ltcSample ltcEval nelderMead
    brdf N s (a, t) (a2 + (N - 1) * N) hidx
  exact ⟨by rw [htab]; exact h.1, by rw [htab]; exact h.2⟩

/-- The inner loop preserves the stored boundary entries of other
rows. -/
lemma runCol_edgeOK_preserve (brdf : Brdf) (N a : ℕ) (ha : a < N) (a2 : ℕ)
    (ha2 : a2 < N) (hne : a2 ≠ a) :
    ∀ (k : ℕ), k ≤ N → ∀ (s : FitState), edgeOK N s a2 →
      edgeOK N (runCol sinf cosf acosf sqrtf ltcSample ltcEval nelderMead brdf N a k s) a2 := by
  intro k
  induction k with
  | zero => intro _ s h; exact h
  | succ k ih =>
    intro hk s h
    show edgeOK N (cellStep sinf cosf acosf sqrtf ltcSample ltcEval nelderMead brdf N
      (runCol sinf cosf acosf sqrtf ltcSample ltcEval nelderMead brdf N a k s) (a, N - 1 - k)) a2
    refine cellStep_edgeOK_preserve sinf cosf acosf sqrtf ltcSample ltcEval nelderMead
      brdf N _ a (N - 1 - k) a2 ha ha2 ?_ (ih (by omega) s h)
    intro hcontra
    exact hne (congrArg Prod.fst hcontra)

/-- After at least one inner step, the stored boundary entry of the row
being processed satisfies the floor. -/
lemma runCol_edgeOK_establish (brdf : Brdf) (N a : ℕ) (ha : a < N) :
    ∀ (k : ℕ), 1 ≤ k → k ≤ N → ∀ (s : FitState),
      edgeOK N (runCol sinf cosf acosf sqrtf ltcSample ltcEval nelderMead brdf N a k s) a := by
  intro k
  induction k with
  | zero => intro h1; omega
  | succ k ih =>
    intro _ hk s
    show edgeOK N (cellStep sinf cosf acosf sqrtf ltcSample ltcEval nelderMead brdf N
      (runCol sinf cosf acosf sqrtf ltcSample ltcEval nelderMead brdf N a k s) (a, N - 1 - k)) a
    rcases Nat.eq_zero_or_pos k with hk0 | hk1
    · subst hk0
      have : N - 1 - 0 = N - 1 := by omega
      rw [this]
      exact cellStep_edge_write sinf cosf acosf sqrtf ltcSample ltcEval nelderMead brdf N _ a
    · refine cellStep_edgeOK_preserve sinf cosf acosf sqrtf ltcSample ltcEval nelderMead
        brdf N _ a (N - 1 - k) a ha ha ?_ (ih hk1 (by omega) s)
      intro hcontra
      have : N - 1 = N - 1 - k := congrArg Prod.snd hcontra
      omega

/-- After the first k rows of the traversal, every processed row has a
floored stored boundary entry. -/
lemma runCols_edgeOK (brdf : Brdf) (N : ℕ) :
    ∀ (k : ℕ), k ≤ N → ∀ (a2 : ℕ), N - k ≤ a2 → a2 < N →
      edgeOK N (runCols sinf cosf acosf sqrtf ltcSample ltcEval nelderMead brdf N k initState) a2 := by
  intro k
  induction k with
  | zero => intro _ a2 h1 h2; omega
  | succ k ih =>
    intro hk a2 h1 h2
    show edgeOK N (runCol sinf cosf acosf sqrtf ltcSample ltcEval nelderMead brdf N (N - 1 - k) N
      (runCols sinf cosf acosf sqrtf ltcSample ltcEval nelderMead brdf N k initState)) a2
    rcases eq_or_ne a2 (N - 1 - k) with heq | hne
    · subst heq
      exact runCol_edgeOK_establish sinf cosf acosf sqrtf ltcSample ltcEval nelderMead
        brdf N _ h2 N (by omega) (le_refl N) _
    · exact runCol_edgeOK_preserve sinf cosf acosf sqrtf ltcSample ltcEval nelderMead
        brdf N _ (by omega) a2 h2 hne N (le_refl N) _
        (ih (by omega) a2 (by omega) h2)

lemma runCol_succ (brdf : Brdf) (N a k : ℕ) (s : FitState) :
    runCol sinf cosf acosf sqrtf ltcSample ltcEval nelderMead brdf N a (k + 1) s
      = cellStep sinf cosf acosf sqrtf ltcSample ltcEval nelderMead brdf N
          (runCol sinf cosf acosf sqrtf ltcSample ltcEval nelderMead brdf N a k s)
          (a, N - 1 - k) := rfl

/-- At a boundary column cell the traversal state is exactly the state
at the entry of its row. -/
lemma stateBefore_edge (brdf : Brdf) (N a : ℕ) :
    stateBefore sinf cosf acosf sqrtf ltcSample ltcEval nelderMead brdf N a (N - 1)
      = runCols sinf cosf acosf sqrtf ltcSample ltcEval nelderMead brdf N (N - 1 - a)
          initState := by
  unfold stateBefore
  rw [Nat.sub_self]
  rfl

/-- At an interior cell the traversal state is the result of processing
the cell with the next higher t from its own entry state. -/
lemma stateBefore_interior_step (brdf : Brdf) (N a t : ℕ) (h1 : t + 1 ≤ N - 1) :
    stateBefore sinf cosf acosf sqrtf ltcSample ltcEval nelderMead brdf N a t
      = cellStep sinf cosf acosf sqrtf ltcSample ltcEval nelderMead brdf N
          (stateBefore sinf cosf acosf sqrtf ltcSample ltcEval nelderMead brdf N a (t + 1))
          (a, t + 1) := by
  unfold stateBefore
  have h2 : N - 1 - t = (N - 1 - (t + 1)) + 1 := by omega
  have h3 : N - 1 - (N - 1 - (t + 1)) = t + 1 := by omega
  rw [h2, runCol_succ, h3]

/-- C1: per-cell warm start of the grid-fit driver fitTab.  At a
boundary column cell (t = N-1) the frame is reset to the identity, the
fit is constrained isotropic, the skew is zeroed, and the two scales
are seeded to 1 at the roughest cell (a = N-1) and otherwise copied
exactly from the table entries [0][0] and [1][1] stored at index
a+1+t*N by the previously completed row.  At an interior cell
(t < N-1) only the frame is re-oriented from the average direction
estimate while m11, m22, m13 keep the values the previously processed
cell of the same row converged to. -/
theorem fitTab_warm_start (brdf : Brdf) (N a t : ℕ) (ha : a < N) (ht : t < N) :
    (t = N - 1 →
      (seedAt sinf cosf acosf sqrtf ltcSample ltcEval nelderMead brdf N a t).1.X = ⟨1, 0, 0⟩
      ∧ (seedAt sinf cosf acosf sqrtf ltcSample ltcEval nelderMead brdf N a t).1.Y = ⟨0, 1, 0⟩
      ∧ (seedAt sinf cosf acosf sqrtf ltcSample ltcEval nelderMead brdf N a t).1.Z = ⟨0, 0, 1⟩
      ∧ (seedAt sinf cosf acosf sqrtf ltcSample ltcEval nelderMead brdf N a t).2 = true
      ∧ (seedAt sinf cosf acosf sqrtf ltcSample ltcEval nelderMead brdf N a t).1.m13 = 0
      ∧ (a = N - 1 →
          (seedAt sinf cosf acosf sqrtf ltcSample ltcEval nelderMead brdf N a t).1.m11 = 1
          ∧ (seedAt sinf cosf acosf sqrtf ltcSample ltcEval nelderMead brdf N a t).1.m22 = 1)
      ∧ (a ≠ N - 1 →
          (seedAt sinf cosf acosf sqrtf ltcSample ltcEval nelderMead brdf N a t).1.m11
            = (stateBefore sinf cosf acosf sqrtf ltcSample ltcEval nelderMead brdf N a t).tab
                (a + 1 + t * N) 0 0
          ∧ (seedAt sinf cosf acosf sqrtf ltcSample ltcEval nelderMead brdf N a t).1.m22
            = (stateBefore sinf cosf acosf sqrtf ltcSample ltcEval nelderMead brdf N a t).tab
                (a + 1 + t * N) 1 1))
    ∧ (t ≠ N - 1 →
      (seedAt sinf cosf acosf sqrtf ltcSample ltcEval nelderMead brdf N a t).2 = false
      ∧ (seedAt sinf cosf acosf sqrtf ltcSample ltcEval nelderMead brdf N a t).1.m11
          = (stateBefore sinf cosf acosf sqrtf ltcSample ltcEval nelderMead brdf N a t).ltc.m11
      ∧ (seedAt sinf cosf acosf sqrtf ltcSample ltcEval nelderMead brdf N a t).1.m22
          = (stateBefore sinf cosf acosf sqrtf ltcSample ltcEval nelderMead brdf N a t).ltc.m22
      ∧ (seedAt sinf cosf acosf sqrtf ltcSample ltcEval nelderMead brdf N a t).1.m13
          = (stateBefore sinf cosf acosf sqrtf ltcSample ltcEval nelderMead brdf N a t).ltc.m13
      ∧ (seedAt sinf cosf acosf sqrtf ltcSample ltcEval nelderMead brdf N a t).1.X
          = ⟨(computeAverageDir sqrtf brdf (cellV sinf cosf acosf N t) (cellAlpha N a)).z, 0,
              -(computeAverageDir sqrtf brdf (cellV sinf cosf acosf N t) (cellAlpha N a)).x⟩
      ∧ (seedAt sinf cosf acosf sqrtf ltcSample ltcEval nelderMead brdf N a t).1.Y = ⟨0, 1, 0⟩
      ∧ (seedAt sinf cosf acosf sqrtf ltcSample ltcEval nelderMead brdf N a t).1.Z
          = computeAverageDir sqrtf brdf (cellV sinf cosf acosf N t) (cellAlpha N a)
      ∧ stateBefore sinf cosf acosf sqrtf ltcSample ltcEval nelderMead brdf N a t
          = cellStep sinf cosf acosf sqrtf ltcSample ltcEval nelderMead brdf N
              (stateBefore sinf cosf acosf sqrtf ltcSample ltcEval nelderMead brdf N a (t + 1))
              (a, t + 1)) := by
  constructor
  · intro htE
    subst htE
    simp only [seedAt]
    rw [seedLTC_edge_fst, seedLTC_edge_iso]
    refine ⟨rfl, rfl, rfl, rfl, rfl, ?_, ?_⟩
    · intro haE
      subst haE
      constructor <;> simp [LTC.update]
    · intro haNe
      have hsb := stateBefore_edge sinf cosf acosf sqrtf ltcSample ltcEval nelderMead brdf N a
      have hok := runCols_edgeOK sinf cosf acosf sqrtf ltcSample ltcEval nelderMead brdf N
        (N - 1 - a) (by omega) (a + 1) (by omega) (by omega)
      rw [hsb]
      constructor
      · simp only [LTC.update]
        rw [if_neg haNe]
        exact max_eq_left hok.1
      · simp only [LTC.update]
        rw [if_neg haNe]
        exact max_eq_left hok.2
  · intro htNe
    obtain ⟨hiso2, hfst2⟩ := seedLTC_interior sinf cosf acosf sqrtf brdf N
      (stateBefore sinf cosf acosf sqrtf ltcSample ltcEval nelderMead brdf N a t) a t htNe
    simp only [seedAt]
    rw [hfst2, hiso2]
    refine ⟨rfl, ?_, ?_, ?_, ?_, ?_, ?_,
      stateBefore_interior_step sinf cosf acosf sqrtf ltcSample ltcEval nelderMead brdf N a t
        (by omega)⟩
    · rw [ltcUpdate_m11]
    · rw [ltcUpdate_m22]
    · rw [ltcUpdate_m13]
    · rw [ltcUpdate_X]
    · rw [ltcUpdate_Y]
    · rw [ltcUpdate_Z]

/-- Witness for fitTab_warm_start: the warm start property instantiated
at the concrete cell N = 2, a = 0, t = 1 with degenerate model
parameters, with both hypotheses discharged. -/
theorem fitTab_warm_start_witness :
    ((0 : ℕ) < 2 ∧ (1 : ℕ) < 2) ∧
    ((1 = 2 - 1 →
      (seedAt zeroFn zeroFn zeroFn zeroFn ltcSampleConst ltcEvalConst nmIdentity brdfConst 2 0 1).1.X = ⟨1, 0, 0⟩
      ∧ (seedAt zeroFn zeroFn zeroFn zeroFn ltcSampleConst ltcEvalConst nmIdentity brdfConst 2 0 1).1.Y = ⟨0, 1, 0⟩
      ∧ (seedAt zeroFn zeroFn zeroFn zeroFn ltcSampleConst ltcEvalConst nmIdentity brdfConst 2 0 1).1.Z = ⟨0, 0, 1⟩
      ∧ (seedAt zeroFn zeroFn zeroFn zeroFn ltcSampleConst ltcEvalConst nmIdentity brdfConst 2 0 1).2 = true
      ∧ (seedAt zeroFn zeroFn zeroFn zeroFn ltcSampleConst ltcEvalConst nmIdentity brdfConst 2 0 1).1.m13 = 0
      ∧ (0 = 2 - 1 →
          (seedAt zeroFn zeroFn zeroFn zeroFn ltcSampleConst ltcEvalConst nmIdentity brdfConst 2 0 1).1.m11 = 1
          ∧ (seedAt zeroFn zeroFn zeroFn zeroFn ltcSampleConst ltcEvalConst nmIdentity brdfConst 2 0 1).1.m22 = 1)
      ∧ (0 ≠ 2 - 1 →
          (seedAt zeroFn zeroFn zeroFn zeroFn ltcSampleConst ltcEvalConst nmIdentity brdfConst 2 0 1).1.m11
            = (stateBefore zeroFn zeroFn zeroFn zeroFn ltcSampleConst ltcEvalConst nmIdentity brdfConst 2 0 1).tab
                (0 + 1 + 1 * 2) 0 0
          ∧ (seedAt zeroFn zeroFn zeroFn zeroFn ltcSampleConst ltcEvalConst nmIdentity brdfConst 2 0 1).1.m22
            = (stateBefore zeroFn zeroFn zeroFn zeroFn ltcSampleConst ltcEvalConst nmIdentity brdfConst 2 0 1).tab
                (0 + 1 + 1 * 2) 1 1))
    ∧ (1 ≠ 2 - 1 →
      (seedAt zeroFn zeroFn zeroFn zeroFn ltcSampleConst ltcEvalConst nmIdentity brdfConst 2 0 1).2 = false
      ∧ (seedAt zeroFn zeroFn zeroFn zeroFn ltcSampleConst ltcEvalConst nmIdentity brdfConst 2 0 1).1.m11
          = (stateBefore zeroFn zeroFn zeroFn zeroFn ltcSampleConst ltcEvalConst nmIdentity brdfConst 2 0 1).ltc.m11
      ∧ (seedAt zeroFn zeroFn zeroFn zeroFn ltcSampleConst ltcEvalConst nmIdentity brdfConst 2 0 1).1.m22
          = (stateBefore zeroFn zeroFn zeroFn zeroFn ltcSampleConst ltcEvalConst nmIdentity brdfConst 2 0 1).ltc.m22
      ∧ (seedAt zeroFn zeroFn zeroFn zeroFn ltcSampleConst ltcEvalConst nmIdentity brdfConst 2 0 1).1.m13
          = (stateBefore zeroFn zeroFn zeroFn zeroFn ltcSampleConst ltcEvalConst nmIdentity brdfConst 2 0 1).ltc.m13
      ∧ (seedAt zeroFn zeroFn zeroFn zeroFn ltcSampleConst ltcEvalConst nmIdentity brdfConst 2 0 1).1.X
          = ⟨(computeAverageDir zeroFn brdfConst (cellV zeroFn zeroFn zeroFn 2 1) (cellAlpha 2 0)).z, 0,
              -(computeAverageDir zeroFn brdfConst (cellV zeroFn zeroFn zeroFn 2 1) (cellAlpha 2 0)).x⟩
      ∧ (seedAt zeroFn zeroFn zeroFn zeroFn ltcSampleConst ltcEvalConst nmIdentity brdfConst 2 0 1).1.Y = ⟨0, 1, 0⟩
      ∧ (seedAt zeroFn zeroFn zeroFn zeroFn ltcSampleConst ltcEvalConst nmIdentity brdfConst 2 0 1).1.Z
          = computeAverageDir zeroFn brdfConst (cellV zeroFn zeroFn zeroFn 2 1) (cellAlpha 2 0)
      ∧ stateBefore zeroFn zeroFn zeroFn zeroFn ltcSampleConst ltcEvalConst nmIdentity brdfConst 2 0 1
          = cellStep zeroFn zeroFn zeroFn zeroFn ltcSampleConst ltcEvalConst nmIdentity brdfConst 2
              (stateBefore zeroFn zeroFn zeroFn zeroFn ltcSampleConst ltcEvalConst nmIdentity brdfConst 2 0 (1 + 1))
              (0, 1 + 1))) :=
  ⟨⟨by decide, by decide⟩,
    fitTab_warm_start zeroFn zeroFn zeroFn zeroFn ltcSampleConst ltcEvalConst nmIdentity
      brdfConst 2 0 1 (by decide) (by decide)⟩

lemma fitUpdate_floor (iso : Bool) (p : Fin 3 → ℚ) (l : LTC) :
    MIN_ALPHA ≤ (FitLTC.update iso p l).m11 ∧ MIN_ALPHA ≤ (FitLTC.update iso p l).m22 := by
  constructor
  · rw [fitUpdate_m11]
    exact le_max_right _ _
  · rw [fitUpdate_m22]
    cases iso <;> simp

lemma fit_floor (l : LTC) (brdf : Brdf) (V : Vec3) (alpha epsilon : ℚ) (iso : Bool) :
    MIN_ALPHA ≤ (fit ltcSample ltcEval nelderMead l brdf V alpha epsilon iso).m11
    ∧ MIN_ALPHA ≤ (fit ltcSample ltcEval nelderMead l brdf V alpha epsilon iso).m22 := by
  unfold fit
  exact fitUpdate_floor _ _ _

/-- C3: for every boundary column cell (t = N-1) the fitted lobe has a
skew of exactly 0 and equal diagonal scales, for every row a; the
constrained FitLTC.update path forces m22 = m11 and m13 = 0 on every
update, including the final one that writes the result. -/
theorem edge_column_isotropic (brdf : Brdf) (N a : ℕ) (s : FitState) :
    ((cellStep sinf cosf acosf sqrtf ltcSample ltcEval nelderMead brdf N s (a, N - 1)).ltc.m13 = 0
      ∧ (cellStep sinf cosf acosf sqrtf ltcSample ltcEval nelderMead brdf N s (a, N - 1)).ltc.m22
        = (cellStep sinf cosf acosf sqrtf ltcSample ltcEval nelderMead brdf N s (a, N - 1)).ltc.m11)
    ∧ ∀ (p : Fin 3 → ℚ) (l : LTC),
        (FitLTC.update true p l).m13 = 0
        ∧ (FitLTC.update true p l).m22 = (FitLTC.update true p l).m11 := by
  obtain ⟨res, hres⟩ := cellFit_edge sinf cosf acosf sqrtf ltcSample ltcEval nelderMead brdf N s a
  constructor
  · constructor
    · show (cellFit sinf cosf acosf sqrtf ltcSample ltcEval nelderMead brdf N s a (N - 1)).m13 = 0
      rw [hres, fitUpdate_true_m13]
    · show (cellFit sinf cosf acosf sqrtf ltcSample ltcEval nelderMead brdf N s a (N - 1)).m22
        = (cellFit sinf cosf acosf sqrtf ltcSample ltcEval nelderMead brdf N s a (N - 1)).m11
      rw [hres, fitUpdate_true_m22, fitUpdate_m11]
  · intro p l
    exact ⟨fitUpdate_true_m13 p l, by rw [fitUpdate_true_m22, fitUpdate_m11]⟩

/-- C4: the two diagonal scales never drop below the MIN_ALPHA floor at
any lobe update point: after every FitLTC.update (each optimizer
objective evaluation and the final write back), after the boundary
column seeding, and after every completed cell of the traversal. -/
theorem scale_floor_invariant :
    (∀ (iso : Bool) (p : Fin 3 → ℚ) (l : LTC),
      MIN_ALPHA ≤ (FitLTC.update iso p l).m11 ∧ MIN_ALPHA ≤ (FitLTC.update iso p l).m22)
    ∧ (∀ (brdf : Brdf) (N : ℕ) (s : FitState) (a : ℕ),
      MIN_ALPHA ≤ (seedLTC sinf cosf acosf sqrtf brdf N s a (N - 1)).1.m11
      ∧ MIN_ALPHA ≤ (seedLTC sinf cosf acosf sqrtf brdf N s a (N - 1)).1.m22)
    ∧ (∀ (brdf : Brdf) (N : ℕ) (s : FitState) (cell : ℕ × ℕ),
      MIN_ALPHA ≤ (cellStep sinf cosf acosf sqrtf ltcSample ltcEval nelderMead brdf N s cell).ltc.m11
      ∧ MIN_ALPHA ≤ (cellStep sinf cosf acosf sqrtf ltcSample ltcEval nelderMead brdf N s cell).ltc.m22) := by
  refine ⟨fitUpdate_floor, ?_, ?_⟩
  · intro brdf N s a
    rw [seedLTC_edge_fst]
    constructor
    · rw [ltcUpdate_m11]
      show MIN_ALPHA ≤ if a = N - 1 then 1
        else max (s.tab (a + 1 + (N - 1) * N) 0 0) MIN_ALPHA
      split_ifs
      · norm_num [MIN_ALPHA]
      · exact le_max_right _ _
    · rw [ltcUpdate_m22]
      show MIN_ALPHA ≤ if a = N - 1 then 1
        else max (s.tab (a + 1 + (N - 1) * N) 1 1) MIN_ALPHA
      split_ifs
      · norm_num [MIN_ALPHA]
      · exact le_max_right _ _
  · intro brdf N s cell
    exact fit_floor ltcSample ltcEval nelderMead _ brdf _ _ _ _

/-- C6: with N at least 2, every cell derives its view vector as
(sin theta, 0, cos theta) with theta = min 1.57 (arccos (t/(N-1))) and
its fit roughness as max ((a/(N-1))^2) MIN_ALPHA. -/
theorem cell_view_roughness (N a t : ℕ) (_hN : 2 ≤ N) :
    cellV sinf cosf acosf N t
      = ⟨sinf (min 1.57 (acosf ((t : ℚ) / ((N : ℚ) - 1)))), 0,
          cosf (min 1.57 (acosf ((t : ℚ) / ((N : ℚ) - 1))))⟩
    ∧ cellAlpha N a = max (((a : ℚ) / ((N : ℚ) - 1)) ^ 2) MIN_ALPHA := by
  constructor
  · rfl
  · rw [pow_two]
    rfl

/-- Witness for cell_view_roughness: the derivation at the concrete
cell N = 2, a = 0, t = 1, with the hypothesis discharged. -/
theorem cell_view_roughness_witness :
    2 ≤ 2 ∧
    (cellV zeroFn zeroFn zeroFn 2 1
      = ⟨zeroFn (min 1.57 (zeroFn (((1 : ℕ) : ℚ) / (((2 : ℕ) : ℚ) - 1)))), 0,
          zeroFn (min 1.57 (zeroFn (((1 : ℕ) : ℚ) / (((2 : ℕ) : ℚ) - 1))))⟩
    ∧ cellAlpha 2 0 = max ((((0 : ℕ) : ℚ) / (((2 : ℕ) : ℚ) - 1)) ^ 2) MIN_ALPHA) :=
  ⟨by norm_num, cell_view_roughness zeroFn zeroFn zeroFn 2 0 1 (by norm_num)⟩

/-- C8: the grid fit is deterministic: two runs of fitTab on the same
inputs give the same table, and the estimators draw from the fixed
stratified grid of cell centers (i + 1/2)/Nsample with no randomness
source anywhere in the pipeline. -/
theorem fitTab_deterministic (brdf : Brdf) (N : ℕ) :
    fitTab sinf cosf acosf sqrtf ltcSample ltcEval nelderMead N brdf
      = fitTab sinf cosf acosf sqrtf ltcSample ltcEval nelderMead N brdf
    ∧ (∀ i : ℕ, stratCenter i = ((i : ℚ) + 1 / 2) / 32) :=
  ⟨rfl, fun i => by norm_num [stratCenter, Nsample]⟩

/-- C9: at the degenerate grid size N = 1 the driver still totally
computes a single cell table: the traversal is exactly one cell step at
(a, t) = (0, 0), and the divisions by N - 1 = 0 in the per cell
derivations produce well defined values (division by zero is total on
the rationals), the roughness flooring to MIN_ALPHA. -/
theorem fitTab_single_cell (brdf : Brdf) :
    fitTab sinf cosf acosf sqrtf ltcSample ltcEval nelderMead 1 brdf
      = cellStep sinf cosf acosf sqrtf ltcSample ltcEval nelderMead brdf 1 initState (0, 0)
    ∧ cellAlpha 1 0 = MIN_ALPHA
    ∧ cellV sinf cosf acosf 1 0
        = ⟨sinf (min 1.57 (acosf 0)), 0, cosf (min 1.57 (acosf 0))⟩ := by
  refine ⟨rfl, ?_, ?_⟩
  · unfold cellAlpha
    norm_num [MIN_ALPHA]
  · simp only [cellV]
    norm_num

lemma computeNorm_eq (brdf : Brdf) (V : Vec3) (alpha : ℚ) :
    computeNorm brdf V alpha
      = (∑ j ∈ Finset.range Nsample, ∑ i ∈ Finset.range Nsample, normTerm brdf V alpha i j)
        / ((Nsample : ℚ) * (Nsample : ℚ)) := by
  unfold computeNorm
  have h : (fun (norm : ℚ) (j : ℕ) =>
        (List.range Nsample).foldl (fun norm i => norm + normTerm brdf V alpha i j) norm)
      = fun norm j => norm + ∑ i ∈ Finset.range Nsample, normTerm brdf V alpha i j := by
    funext norm j
    exact range_foldl_add _ _ _
  rw [h, range_foldl_add, zero_add]

lemma computeAverageDirAccum_eq (brdf : Brdf) (V : Vec3) (alpha : ℚ) :
    computeAverageDirAccum brdf V alpha
      = ∑ j ∈ Finset.range Nsample, ∑ i ∈ Finset.range Nsample, averageDirTerm brdf V alpha i j := by
  unfold computeAverageDirAccum
  have h : (fun (acc : Vec3) (j : ℕ) =>
        (List.range Nsample).foldl (fun acc i => acc + averageDirTerm brdf V alpha i j) acc)
      = fun acc j => acc + ∑ i ∈ Finset.range Nsample, averageDirTerm brdf V alpha i j := by
    funext acc j
    exact range_foldl_add _ _ _
  rw [h, range_foldl_add, zero_add]

lemma computeError_eq (ltc : LTC) (brdf : Brdf) (V : Vec3) (alpha : ℚ) :
    computeError ltcSample ltcEval ltc brdf V alpha
      = (∑ j ∈ Finset.range Nsample, ∑ i ∈ Finset.range Nsample,
          (errorTermLTC ltcSample ltcEval ltc brdf V alpha i j
            + errorTermBrdf ltcEval ltc brdf V alpha i j))
        / ((Nsample : ℚ) * (Nsample : ℚ)) := by
  unfold computeError
  have h : (fun (error : ℚ) (j : ℕ) =>
        (List.range Nsample).foldl (fun error i =>
          error + errorTermLTC ltcSample ltcEval ltc brdf V alpha i j
            + errorTermBrdf ltcEval ltc brdf V alpha i j) error)
      = fun error j => error + ∑ i ∈ Finset.range Nsample,
          (errorTermLTC ltcSample ltcEval ltc brdf V alpha i j
            + errorTermBrdf ltcEval ltc brdf V alpha i j) := by
    funext error j
    have h2 : (fun (error : ℚ) (i : ℕ) =>
          error + errorTermLTC ltcSample ltcEval ltc brdf V alpha i j
            + errorTermBrdf ltcEval ltc brdf V alpha i j)
        = fun error i =>
            error + (errorTermLTC ltcSample ltcEval ltc brdf V alpha i j
              + errorTermBrdf ltcEval ltc brdf V alpha i j) := by
      funext e i
      ring
    rw [h2]
    exact range_foldl_add _ _ _
  rw [h, range_foldl_add, zero_add]

/-- C5: in computeNorm and computeAverageDir every sample with a
density that is not strictly positive contributes exactly zero instead
of dividing, every sample with positive density contributes eval/pdf
(direction weighted for the average direction), and computeNorm is the
accumulated sum divided by Nsample * Nsample. -/
theorem estimator_pdf_guard (brdf : Brdf) (V : Vec3) (alpha : ℚ) :
    (∀ i j : ℕ,
      normTerm brdf V alpha i j
        = if 0 < (brdf.eval V (brdf.sample V alpha (stratCenter i) (stratCenter j)) alpha).2
          then (brdf.eval V (brdf.sample V alpha (stratCenter i) (stratCenter j)) alpha).1
            / (brdf.eval V (brdf.sample V alpha (stratCenter i) (stratCenter j)) alpha).2
          else 0)
    ∧ (∀ i j : ℕ,
      averageDirTerm brdf V alpha i j
        = if 0 < (brdf.eval V (brdf.sample V alpha (stratCenter i) (stratCenter j)) alpha).2
          then Vec3.smul
            ((brdf.eval V (brdf.sample V alpha (stratCenter i) (stratCenter j)) alpha).1
              / (brdf.eval V (brdf.sample V alpha (stratCenter i) (stratCenter j)) alpha).2)
            (brdf.sample V alpha (stratCenter i) (stratCenter j))
          else ⟨0, 0, 0⟩)
    ∧ computeNorm brdf V alpha
        = (∑ j ∈ Finset.range Nsample, ∑ i ∈ Finset.range Nsample, normTerm brdf V alpha i j)
          / ((Nsample : ℚ) * (Nsample : ℚ))
    ∧ computeAverageDir sqrtf brdf V alpha
        = vnormalize sqrtf
            ⟨(∑ j ∈ Finset.range Nsample, ∑ i ∈ Finset.range Nsample,
                averageDirTerm brdf V alpha i j).x, 0,
              (∑ j ∈ Finset.range Nsample, ∑ i ∈ Finset.range Nsample,
                averageDirTerm brdf V alpha i j).z⟩ := by
  refine ⟨fun i j => rfl, fun i j => rfl, computeNorm_eq brdf V alpha, ?_⟩
  unfold computeAverageDir
  rw [computeAverageDirAccum_eq]

/-- C2: computeError is the mean over the stratified grid of the
two-strategy contributions: for each pair one direction is drawn from
the lobe strategy and one from the model strategy, each contribution is
the cubed absolute difference between the model reflectance and the
lobe value divided by the sum of the two densities, and the result is
the accumulated error divided by Nsample * Nsample. -/
theorem computeError_mis_mean (ltc : LTC) (brdf : Brdf) (V : Vec3) (alpha : ℚ) :
    computeError ltcSample ltcEval ltc brdf V alpha
      = (∑ j ∈ Finset.range Nsample, ∑ i ∈ Finset.range Nsample,
          (|(brdf.eval V (misDirLTC ltcSample ltc i j) alpha).1
              - ltcEval ltc (misDirLTC ltcSample ltc i j)| ^ 3
            / (pdfLTC ltcEval ltc (misDirLTC ltcSample ltc i j)
                + pdfBrdf brdf V alpha (misDirLTC ltcSample ltc i j))
          + |(brdf.eval V (misDirBrdf brdf V alpha i j) alpha).1
              - ltcEval ltc (misDirBrdf brdf V alpha i j)| ^ 3
            / (pdfLTC ltcEval ltc (misDirBrdf brdf V alpha i j)
                + pdfBrdf brdf V alpha (misDirBrdf brdf V alpha i j))))
        / ((Nsample : ℚ) * (Nsample : ℚ)) := by
  rw [computeError_eq]
  congr 1
  refine Finset.sum_congr rfl (fun j _ => Finset.sum_congr rfl (fun i _ => ?_))
  simp only [errorTermLTC, errorTermBrdf]
  ring

/-- C7: on every stored matrix whose four killed entries are zero, the
five terms emitted by packTab are the nonzero entries of the adjugate
of the matrix placed in the same sparsity pattern, so the reconstructed
matrix times the stored matrix is det times the identity; the second
texture channel carries the stored amplitude unchanged; and killCoefs
zeroes exactly those four entries of every stored cell. -/
theorem packTab_adjugate (tb : ℕ → Mat3) (amp : ℕ → ℚ × ℚ) (N i : ℕ)
    (hz : tb i 0 1 = 0 ∧ tb i 1 0 = 0 ∧ tb i 2 1 = 0 ∧ tb i 1 2 = 0) :
    toMatrix (reconstructInv (packTab tb amp N i).1 (packTab tb amp N i).2.1)
        = (toMatrix (tb i)).adjugate
    ∧ toMatrix (reconstructInv (packTab tb amp N i).1 (packTab tb amp N i).2.1)
        * toMatrix (tb i) = (toMatrix (tb i)).det • 1
    ∧ (packTab tb amp N i).1
        = ⟨tb i 1 1 * tb i 2 2, -(tb i 0 2) * tb i 1 1,
            tb i 0 0 * tb i 2 2 - tb i 0 2 * tb i 2 0, -(tb i 1 1) * tb i 2 0⟩
    ∧ (packTab tb amp N i).2.1 = tb i 0 0 * tb i 1 1
    ∧ (packTab tb amp N i).2.2 = (amp i).1
    ∧ (∀ (m : Mat3), killCoefs m 0 1 = 0 ∧ killCoefs m 1 0 = 0
        ∧ killCoefs m 2 1 = 0 ∧ killCoefs m 1 2 = 0
        ∧ killCoefs m 0 0 = m 0 0 ∧ killCoefs m 0 2 = m 0 2 ∧ killCoefs m 1 1 = m 1 1
        ∧ killCoefs m 2 0 = m 2 0 ∧ killCoefs m 2 2 = m 2 2) := by
  obtain ⟨h1, h2, h3, h4⟩ := hz
  have hadj : toMatrix (reconstructInv (packTab tb amp N i).1 (packTab tb amp N i).2.1)
      = (toMatrix (tb i)).adjugate := by
    rw [Matrix.adjugate_fin_three]
    apply Matrix.ext
    intro r c
    fin_cases r <;> fin_cases c <;>
      simp [toMatrix, reconstructInv, packTab, h1, h2, h3, h4] <;> ring
  refine ⟨hadj, ?_, rfl, rfl, rfl, fun m => ⟨rfl, rfl, rfl, rfl, rfl, rfl, rfl, rfl, rfl⟩⟩
  rw [hadj]
  exact Matrix.adjugate_mul _

/-- Witness for packTab_adjugate: the packing property instantiated on
a concrete table holding one matrix with the stored sparsity pattern,
with the zero-entry hypothesis discharged. -/
theorem packTab_adjugate_witness :
    (tabExample 0 0 1 = 0 ∧ tabExample 0 1 0 = 0
      ∧ tabExample 0 2 1 = 0 ∧ tabExample 0 1 2 = 0) ∧
    (toMatrix (reconstructInv (packTab tabExample ampExample 1 0).1
          (packTab tabExample ampExample 1 0).2.1)
        = (toMatrix (tabExample 0)).adjugate
    ∧ toMatrix (reconstructInv (packTab tabExample ampExample 1 0).1
          (packTab tabExample ampExample 1 0).2.1)
        * toMatrix (tabExample 0) = (toMatrix (tabExample 0)).det • 1
    ∧ (packTab tabExample ampExample 1 0).1
        = ⟨tabExample 0 1 1 * tabExample 0 2 2, -(tabExample 0 0 2) * tabExample 0 1 1,
            tabExample 0 0 0 * tabExample 0 2 2 - tabExample 0 0 2 * tabExample 0 2 0,
            -(tabExample 0 1 1) * tabExample 0 2 0⟩
    ∧ (packTab tabExample ampExample 1 0).2.1 = tabExample 0 0 0 * tabExample 0 1 1
    ∧ (packTab tabExample ampExample 1 0).2.2 = (ampExample 0).1
    ∧ (∀ (m : Mat3), killCoefs m 0 1 = 0 ∧ killCoefs m 1 0 = 0
        ∧ killCoefs m 2 1 = 0 ∧ killCoefs m 1 2 = 0
        ∧ killCoefs m 0 0 = m 0 0 ∧ killCoefs m 0 2 = m 0 2 ∧ killCoefs m 1 1 = m 1 1
        ∧ killCoefs m 2 0 = m 2 0 ∧ killCoefs m 2 2 = m 2 2)) :=
  ⟨⟨rfl, rfl, rfl, rfl⟩,
    packTab_adjugate tabExample ampExample 1 0 ⟨rfl, rfl, rfl, rfl⟩⟩

lemma option_foldl_lift (f : Option ℚ → ℕ → Option ℚ) (g : ℚ → ℕ → ℚ) :
    ∀ (n : ℕ), (∀ (acc : ℚ) (i : ℕ), i < n → f (some acc) i = some (g acc i)) →
      ∀ (x : ℚ), (List.range n).foldl f (some x) = some ((List.range n).foldl g x) := by
  intro n
  induction n with
  | zero => intro _ x; simp
  | succ n ih =>
    intro hfg x
    rw [List.range_succ, List.foldl_append, List.foldl_append,
      ih (fun acc i hi => hfg acc i (by omega)) x]
    simp only [List.foldl_cons, List.foldl_nil]
    exact hfg _ n (by omega)

/-- C10: unlike the two guarded estimators, computeError divides by the
density sum with no positivity guard in both branches of every pair;
under the precondition that each sampled direction has nonnegative
densities with at least one strictly positive, the guarded variant is
defined and agrees with computeError. -/
theorem computeError_pdf_precondition (ltc : LTC) (brdf : Brdf) (V : Vec3) (alpha : ℚ)
    (h : ∀ i j : ℕ, i < Nsample → j < Nsample →
      (0 ≤ pdfLTC ltcEval ltc (misDirLTC ltcSample ltc i j)
        ∧ 0 ≤ pdfBrdf brdf V alpha (misDirLTC ltcSample ltc i j)
        ∧ (0 < pdfLTC ltcEval ltc (misDirLTC ltcSample ltc i j)
            ∨ 0 < pdfBrdf brdf V alpha (misDirLTC ltcSample ltc i j)))
      ∧ (0 ≤ pdfLTC ltcEval ltc (misDirBrdf brdf V alpha i j)
        ∧ 0 ≤ pdfBrdf brdf V alpha (misDirBrdf brdf V alpha i j)
        ∧ (0 < pdfLTC ltcEval ltc (misDirBrdf brdf V alpha i j)
            ∨ 0 < pdfBrdf brdf V alpha (misDirBrdf brdf V alpha i j)))) :
    computeErrorChecked ltcSample ltcEval ltc brdf V alpha
      = some (computeError ltcSample ltcEval ltc brdf V alpha) := by
  have hL : ∀ i j : ℕ, i < Nsample → j < Nsample →
      errorTermLTCChecked ltcSample ltcEval ltc brdf V alpha i j
        = some (errorTermLTC ltcSample ltcEval ltc brdf V alpha i j) := by
    intro i j hi hj
    obtain ⟨⟨p1, p2, p3⟩, _⟩ := h i j hi hj
    have hden : 0 < pdfLTC ltcEval ltc (misDirLTC ltcSample ltc i j)
        + pdfBrdf brdf V alpha (misDirLTC ltcSample ltc i j) := by
      rcases p3 with p3 | p3
      · exact add_pos_of_pos_of_nonneg p3 p2
      · exact add_pos_of_nonneg_of_pos p1 p3
    simp only [errorTermLTCChecked]
    rw [if_pos hden]
    rfl
  have hB : ∀ i j : ℕ, i < Nsample → j < Nsample →
      errorTermBrdfChecked ltcEval ltc brdf V alpha i j
        = some (errorTermBrdf ltcEval ltc brdf V alpha i j) := by
    intro i j hi hj
    obtain ⟨_, ⟨q1, q2, q3⟩⟩ := h i j hi hj
    have hden : 0 < pdfLTC ltcEval ltc (misDirBrdf brdf V alpha i j)
        + pdfBrdf brdf V alpha (misDirBrdf brdf V alpha i j) := by
      rcases q3 with q3 | q3
      · exact add_pos_of_pos_of_nonneg q3 q2
      · exact add_pos_of_nonneg_of_pos q1 q3
    simp only [errorTermBrdfChecked]
    rw [if_pos hden]
    rfl
  have hout : ∀ (acc : ℚ) (j : ℕ), j < Nsample →
      (fun (accO : Option ℚ) (j : ℕ) =>
        (List.range Nsample).foldl (fun acc i =>
          acc.bind (fun e =>
            (errorTermLTCChecked ltcSample ltcEval ltc brdf V alpha i j).bind (fun t1 =>
              (errorTermBrdfChecked ltcEval ltc brdf V alpha i j).map (fun t2 =>
                e + t1 + t2)))) accO) (some acc) j
        = some ((fun (e : ℚ) (j : ℕ) =>
            (List.range Nsample).foldl (fun error i =>
              error + errorTermLTC ltcSample ltcEval ltc brdf V alpha i j
                + errorTermBrdf ltcEval ltc brdf V alpha i j) e) acc j) := by
    intro acc j hj
    refine option_foldl_lift _ _ Nsample ?_ acc
    intro e i hi
    rw [hL i j hi hj, hB i j hi hj]
    rfl
  have hmain := option_foldl_lift
    (fun (accO : Option ℚ) (j : ℕ) =>
      (List.range Nsample).foldl (fun acc i =>
        acc.bind (fun e =>
          (errorTermLTCChecked ltcSample ltcEval ltc brdf V alpha i j).bind (fun t1 =>
            (errorTermBrdfChecked ltcEval ltc brdf V alpha i j).map (fun t2 =>
              e + t1 + t2)))) accO)
    (fun (e : ℚ) (j : ℕ) =>
      (List.range Nsample).foldl (fun error i =>
        error + errorTermLTC ltcSample ltcEval ltc brdf V alpha i j
          + errorTermBrdf ltcEval ltc brdf V alpha i j) e)
    Nsample hout 0
  unfold computeErrorChecked computeError
  rw [hmain]
  rfl

/-- Witness for computeError_pdf_precondition: a degenerate model and
lobe with constant unit densities satisfy the precondition, and the
guarded estimator agrees with computeError there. -/
theorem computeError_pdf_precondition_witness :
    (∀ i j : ℕ, i < Nsample → j < Nsample →
      (0 ≤ pdfLTC ltcEvalConst initLTC (misDirLTC ltcSampleConst initLTC i j)
        ∧ 0 ≤ pdfBrdf brdfConst vUnit 1 (misDirLTC ltcSampleConst initLTC i j)
        ∧ (0 < pdfLTC ltcEvalConst initLTC (misDirLTC ltcSampleConst initLTC i j)
            ∨ 0 < pdfBrdf brdfConst vUnit 1 (misDirLTC ltcSampleConst initLTC i j)))
      ∧ (0 ≤ pdfLTC ltcEvalConst initLTC (misDirBrdf brdfConst vUnit 1 i j)
        ∧ 0 ≤ pdfBrdf brdfConst vUnit 1 (misDirBrdf brdfConst vUnit 1 i j)
        ∧ (0 < pdfLTC ltcEvalConst initLTC (misDirBrdf brdfConst vUnit 1 i j)
            ∨ 0 < pdfBrdf brdfConst vUnit 1 (misDirBrdf brdfConst vUnit 1 i j))))
    ∧ computeErrorChecked ltcSampleConst ltcEvalConst initLTC brdfConst vUnit 1
        = some (computeError ltcSampleConst ltcEvalConst initLTC brdfConst vUnit 1) := by
  have hp : ∀ i j : ℕ, i < Nsample → j < Nsample →
      (0 ≤ pdfLTC ltcEvalConst initLTC (misDirLTC ltcSampleConst initLTC i j)
        ∧ 0 ≤ pdfBrdf brdfConst vUnit 1 (misDirLTC ltcSampleConst initLTC i j)
        ∧ (0 < pdfLTC ltcEvalConst initLTC (misDirLTC ltcSampleConst initLTC i j)
            ∨ 0 < pdfBrdf brdfConst vUnit 1 (misDirLTC ltcSampleConst initLTC i j)))
      ∧ (0 ≤ pdfLTC ltcEvalConst initLTC (misDirBrdf brdfConst vUnit 1 i j)
        ∧ 0 ≤ pdfBrdf brdfConst vUnit 1 (misDirBrdf brdfConst vUnit 1 i j)
        ∧ (0 < pdfLTC ltcEvalConst initLTC (misDirBrdf brdfConst vUnit 1 i j)
            ∨ 0 < pdfBrdf brdfConst vUnit 1 (misDirBrdf brdfConst vUnit 1 i j))) := by
    intro i j hi hj
    refine ⟨⟨?_, ?_, Or.inl ?_⟩, ⟨?_, ?_, Or.inl ?_⟩⟩ <;>
      norm_num [pdfLTC, pdfBrdf, ltcEvalConst, brdfConst, initLTC]
  exact ⟨hp,
    computeError_pdf_precondition ltcSampleConst ltcEvalConst initLTC brdfConst vUnit 1 hp⟩

end Lemmas

end LTCFit
